import Mathlib

/-!
Shallow embedding of `debuglater/pydump.py`: traceback snapshot capture,
value sanitization, builtin stripping and reinstatement, source-file
archiving, and gzip + dill/pickle persistence, together with theorems
checking the specification claims against this embedding.

Modelling conventions:
* Python values are the inductive `PyVal`.  Machine-level float contents are
  carried as opaque tokens (no claim computes on float arithmetic).
* Python dicts are insertion-ordered association lists.  Every key
  comparison performed by the source is against a string key (builtin
  names, the local name "self", file paths), so lookups are string-keyed.
* Availability of the full-fidelity serializer (`dill`) is the boolean
  parameter `dillAvailable`, mirroring the module-level `dill is None` test.
* External library behaviour (repr, dill.dumps, pickle, gzip) is modelled
  by explicit, executable semantics on `PyVal` / payloads; fallible calls
  return `Except`.
-/

/-- Result of calling repr on a Python value: either a string or a raised
exception carrying a message. -/
inductive ReprResult where
  | ok (s : String)
  | raises (msg : String)
deriving DecidableEq

/-- A Python runtime value, as relevant to pydump.  The `sub` constructor is
an instance of a strict subclass of the builtin type named `base` (its own
concrete type is not that builtin type).  The `obj` constructor is any other
object: its repr outcome, its `__dict__` (`Option.none` when attribute access
raises, e.g. slotted objects), and flags telling whether `dill.dumps` /
`pickle.dumps` succeed on it.  `fakeClass` is an instance of the
module-level class `FakeClass` (stored repr string plus instance dict). -/
inductive PyVal where
  | none
  | str (s : String)
  | int (n : Int)
  | float (tok : String)
  | bool (b : Bool)
  | date (tok : String)
  | time (tok : String)
  | datetime (tok : String)
  | timedelta (tok : String)
  | tuple (xs : List PyVal)
  | list (xs : List PyVal)
  | set (xs : List PyVal)
  | dict (xs : List (PyVal × PyVal))
  | sub (base : String) (r : String)
  | obj (r : ReprResult) (attrs : Option (List (String × PyVal))) (dillOk : Bool) (pickleOk : Bool)
  | fakeClass (r : String) (vars : List (PyVal × PyVal))

mutual

/-- Python repr on a `PyVal`.  A container repr calls repr of every element
in order and propagates the first raised exception, as CPython does. -/
def py_repr : PyVal → ReprResult
  | .none => .ok "None"
  | .str s => .ok s
  | .int n => .ok (toString n)
  | .float t => .ok t
  | .bool b => .ok (if b then "True" else "False")
  | .date t => .ok t
  | .time t => .ok t
  | .datetime t => .ok t
  | .timedelta t => .ok t
  | .tuple xs => match py_repr_items xs with
      | .inl m => .raises m
      | .inr s => .ok ("(" ++ s ++ ")")
  | .list xs => match py_repr_items xs with
      | .inl m => .raises m
      | .inr s => .ok ("[" ++ s ++ "]")
  | .set xs => match py_repr_items xs with
      | .inl m => .raises m
      | .inr s => .ok ("set(" ++ s ++ ")")
  | .dict xs => match py_repr_pairs xs with
      | .inl m => .raises m
      | .inr s => .ok ("dict(" ++ s ++ ")")
  | .sub _ r => .ok r
  | .obj r _ _ _ => r
  | .fakeClass r _ => .ok r

/-- repr of a sequence of elements: first raised exception wins. -/
def py_repr_items : List PyVal → Sum String String
  | [] => .inr ""
  | x :: xs => match py_repr x with
      | .raises m => .inl m
      | .ok s => match py_repr_items xs with
          | .inl m => .inl m
          | .inr s2 => .inr (s ++ "," ++ s2)

/-- repr of dict entries: key repr, then value repr, first raise wins. -/
def py_repr_pairs : List (PyVal × PyVal) → Sum String String
  | [] => .inr ""
  | (k, v) :: xs => match py_repr k with
      | .raises m => .inl m
      | .ok sk => match py_repr v with
          | .raises m => .inl m
          | .ok sv => match py_repr_pairs xs with
              | .inl m => .inl m
              | .inr s2 => .inr (sk ++ ":" ++ sv ++ "," ++ s2)

end

/-- `_safe_repr(v)`: `repr(v)`, catching any exception `e` and returning
the string `"repr error: " + str(e)` instead. -/
def _safe_repr (v : PyVal) : String :=
  match py_repr v with
  | .ok s => s
  | .raises m => "repr error: " ++ m

mutual

/-- Whether serializing the value in isolation succeeds: `dill.dumps` when
`useDill` is true, `pickle.dumps` otherwise.  Structural on containers
(serializing a container serializes every element); on opaque objects it is
the recorded capability flag. -/
def dumps_ok (useDill : Bool) : PyVal → Bool
  | .none => true
  | .str _ => true
  | .int _ => true
  | .float _ => true
  | .bool _ => true
  | .date _ => true
  | .time _ => true
  | .datetime _ => true
  | .timedelta _ => true
  | .tuple xs => dumps_ok_items useDill xs
  | .list xs => dumps_ok_items useDill xs
  | .set xs => dumps_ok_items useDill xs
  | .dict xs => dumps_ok_pairs useDill xs
  | .sub _ _ => true
  | .obj _ _ dillOk pickleOk => if useDill then dillOk else pickleOk
  | .fakeClass _ vars => dumps_ok_pairs useDill vars

def dumps_ok_items (useDill : Bool) : List PyVal → Bool
  | [] => true
  | x :: xs => dumps_ok useDill x && dumps_ok_items useDill xs

def dumps_ok_pairs (useDill : Bool) : List (PyVal × PyVal) → Bool
  | [] => true
  | (k, v) :: xs => dumps_ok useDill k && dumps_ok useDill v && dumps_ok_pairs useDill xs

end

mutual

/-- `_convert(v)`.  With dill present: if `dill.dumps(v)` succeeds return
`v` unchanged, otherwise return `_safe_repr(v)`.  Without dill (restricted
mode): `None` passes; exact types str/int/float/date/time/datetime/timedelta
pass; exact tuple/list/set are rebuilt element-wise; exact dict rebuilt over
keys and values; everything else becomes `_safe_repr(v)`.  The source checks
`type(v) in BUILTIN` and `type(v) is tuple` etc., i.e. exact concrete type
identity, which the constructor match mirrors (`bool` and strict subclass
instances fall through to the repr case). -/
def _convert (dillAvailable : Bool) (v : PyVal) : PyVal :=
  if dillAvailable then
    if dumps_ok true v then v else PyVal.str (_safe_repr v)
  else
    match v with
    | .none => .none
    | .str s => .str s
    | .int n => .int n
    | .float t => .float t
    | .date t => .date t
    | .time t => .time t
    | .datetime t => .datetime t
    | .timedelta t => .timedelta t
    | .tuple xs => .tuple (_convert_items dillAvailable xs)
    | .list xs => .list (_convert_items dillAvailable xs)
    | .set xs => .set (_convert_items dillAvailable xs)
    | .dict xs => .dict (_convert_entries dillAvailable xs)
    | w => .str (_safe_repr w)

/-- Elementwise conversion of a sequence (the materialized generator
`_convert_seq`). -/
def _convert_items (dillAvailable : Bool) : List PyVal → List PyVal
  | [] => []
  | x :: xs => _convert dillAvailable x :: _convert_items dillAvailable xs

/-- Entry-wise conversion of dict items (the comprehension inside
`_convert_dict`): both key and value are converted. -/
def _convert_entries (dillAvailable : Bool) : List (PyVal × PyVal) → List (PyVal × PyVal)
  | [] => []
  | (k, v) :: xs => (_convert dillAvailable k, _convert dillAvailable v) :: _convert_entries dillAvailable xs

end

/-- `_convert_seq(v)`: generator converting each element (materialized by
the tuple/list/set constructor around it in the source). -/
def _convert_seq (dillAvailable : Bool) (xs : List PyVal) : List PyVal :=
  _convert_items dillAvailable xs

/-- `_convert_dict(v)`: dict rebuilt with every key and value converted. -/
def _convert_dict (dillAvailable : Bool) (xs : List (PyVal × PyVal)) : List (PyVal × PyVal) :=
  _convert_entries dillAvailable xs

/-- View of a string-keyed Python dict (frame locals/globals, instance
dicts have string keys) as a generic Python dict. -/
def str_dict (xs : List (String × PyVal)) : List (PyVal × PyVal) :=
  xs.map (fun kv => (PyVal.str kv.1, kv.2))

/-- Whether the dict key is the string `k`. -/
def is_str_key (k : String) : PyVal → Bool
  | .str s => s = k
  | _ => false

/-- First-match lookup of string key `k` in a Python dict. -/
def alookup_py (k : String) : List (PyVal × PyVal) → Option PyVal
  | [] => Option.none
  | kv :: xs => if is_str_key k kv.1 then Option.some kv.2 else alookup_py k xs

/-- First-match lookup in a string-keyed association list. -/
def alookup_s (k : String) : List (String × PyVal) → Option PyVal
  | [] => Option.none
  | kv :: xs => if kv.1 = k then Option.some kv.2 else alookup_s k xs

/-- Python `d[k] = v` for a string key: replace the value at an existing
key in place, otherwise append the binding. -/
def dict_setitem (d : List (PyVal × PyVal)) (k : String) (v : PyVal) : List (PyVal × PyVal) :=
  if d.any (fun kv => is_str_key k kv.1) then
    d.map (fun kv => if is_str_key k kv.1 then (kv.1, v) else kv)
  else
    d ++ [(PyVal.str k, v)]

/-- Python `d.update(b)` for a string-keyed dict `b`: set each binding of
`b` in order (later duplicates win). -/
def dict_update (d : List (PyVal × PyVal)) (b : List (String × PyVal)) : List (PyVal × PyVal) :=
  b.foldl (fun acc kv => dict_setitem acc kv.1 kv.2) d

/-- `_convert_obj(obj)`: try `FakeClass(_safe_repr(obj), _convert_dict(obj.__dict__))`;
the only fallible step is the `obj.__dict__` attribute access, so when the
value has no instance dict the `except` branch falls back to `_convert(obj)`. -/
def _convert_obj (dillAvailable : Bool) (v : PyVal) : PyVal :=
  match v with
  | .obj r (Option.some attrs) dOk pOk =>
      PyVal.fakeClass (_safe_repr (.obj r (Option.some attrs) dOk pOk))
        (_convert_dict dillAvailable (str_dict attrs))
  | w => _convert dillAvailable w

/-- Whether `v.__dict__` access succeeds (the fallible step of
`_convert_obj`). -/
def has_inst_dict : PyVal → Bool
  | .obj _ (Option.some _) _ _ => true
  | _ => false

/-- Whether a path string is absolute (starts with the separator). -/
def is_abs (p : String) : Bool :=
  match p.data with
  | '/' :: _ => true
  | _ => false

/-- Model of `os.path.abspath`: absolute paths are returned unchanged,
relative paths are resolved against the current working directory. -/
def abspath (p : String) : String :=
  if is_abs p then p else "/cwd/" ++ p

/-- A live code object.  `co_consts` entries are either nested live code
objects or plain constant values; `co_lines`, when the running interpreter
provides it, is the materialized list of its entries. -/
inductive LiveCode where
  | mk : (co_filename : String) → (co_name : String) → (co_argcount : Nat) →
      (co_consts : List (LiveCode ⊕ PyVal)) → (co_firstlineno : Nat) →
      (co_lnotab : String) → (co_varnames : List String) → (co_flags : Nat) →
      (co_code : String) → (co_lines : Option (List (Nat × Nat × Nat))) → LiveCode

/-- `FakeCode`: the captured, inert copy of a code object.  The filename is
taken through `abspath`; nested code objects among `co_consts` are captured
recursively; `co_lines`, when present, is wrapped into `FakeCoLines`
(modelled as the stored entry list). -/
inductive FakeCode where
  | mk : (co_filename : String) → (co_name : String) → (co_argcount : Nat) →
      (co_consts : List (FakeCode ⊕ PyVal)) → (co_firstlineno : Nat) →
      (co_lnotab : String) → (co_varnames : List String) → (co_flags : Nat) →
      (co_code : String) → (co_lines : Option (List (Nat × Nat × Nat))) → FakeCode

def FakeCode.co_filename : FakeCode → String
  | .mk fn _ _ _ _ _ _ _ _ _ => fn

def FakeCode.co_consts : FakeCode → List (FakeCode ⊕ PyVal)
  | .mk _ _ _ cs _ _ _ _ _ _ => cs

mutual

/-- `FakeCode.__init__`: copy every field, absolutize the filename, and
recursively capture code objects found in `co_consts` (the
`hasattr(c, "co_filename")` test distinguishes them from plain consts). -/
def FakeCode.ofLive : LiveCode → FakeCode
  | .mk fn nm argc consts first lnotab varnames flags code colines =>
    .mk (abspath fn) nm argc (FakeCode.ofLiveConsts consts) first lnotab varnames flags code colines

def FakeCode.ofLiveConsts : List (LiveCode ⊕ PyVal) → List (FakeCode ⊕ PyVal)
  | [] => []
  | .inl c :: rest => .inl (FakeCode.ofLive c) :: FakeCode.ofLiveConsts rest
  | .inr v :: rest => .inr v :: FakeCode.ofLiveConsts rest

end

/-- A live frame: code object, string-keyed locals and globals dicts (frame
variable names are identifier strings in CPython), current line, and the
caller frame `f_back`. -/
inductive LiveFrame where
  | mk : LiveCode → (f_locals : List (String × PyVal)) →
      (f_globals : List (String × PyVal)) → (f_lineno : Int) →
      (f_back : Option LiveFrame) → LiveFrame

/-- `FakeFrame`: captured frame with converted locals/globals dicts and a
recursively captured caller chain. -/
inductive FakeFrame where
  | mk : FakeCode → (f_locals : List (PyVal × PyVal)) →
      (f_globals : List (PyVal × PyVal)) → (f_lineno : Int) →
      (f_back : Option FakeFrame) → FakeFrame

def FakeFrame.f_code : FakeFrame → FakeCode
  | .mk c _ _ _ _ => c

def FakeFrame.f_locals : FakeFrame → List (PyVal × PyVal)
  | .mk _ l _ _ _ => l

def FakeFrame.f_globals : FakeFrame → List (PyVal × PyVal)
  | .mk _ _ g _ _ => g

def FakeFrame.f_back : FakeFrame → Option FakeFrame
  | .mk _ _ _ _ b => b

def live_f_locals : LiveFrame → List (String × PyVal)
  | .mk _ l _ _ _ => l

def live_f_back : LiveFrame → Option LiveFrame
  | .mk _ _ _ _ b => b

/-- `FakeFrame.__init__`: convert locals and globals through
`_convert_dict`, capture the code object and the caller chain, then, if the
converted locals contain the key "self", replace that binding with
`_convert_obj` of the original live value.  String keys are preserved by
`_convert`, so when the membership test succeeds the live lookup below it
cannot fail; the unreachable branch keeps the converted dict. -/
def FakeFrame.ofLive (dillAvailable : Bool) : LiveFrame → FakeFrame
  | .mk code locals globals lineno back =>
    let conv_locals := _convert_dict dillAvailable (str_dict locals)
    let conv_locals :=
      if conv_locals.any (fun kv => is_str_key "self" kv.1) then
        match alookup_s "self" locals with
        | Option.some v => dict_setitem conv_locals "self" (_convert_obj dillAvailable v)
        | Option.none => conv_locals
      else conv_locals
    .mk (FakeCode.ofLive code) conv_locals
      (_convert_dict dillAvailable (str_dict globals)) lineno
      (match back with
        | Option.some b => Option.some (FakeFrame.ofLive dillAvailable b)
        | Option.none => Option.none)

/-- A live traceback node: its frame, the line number, and the next (inner)
traceback node. -/
inductive LiveTraceback where
  | mk : LiveFrame → (tb_lineno : Int) → (tb_next : Option LiveTraceback) → LiveTraceback

/-- `FakeTraceback`: captured traceback node; `tb_lasti` is set to 0. -/
inductive FakeTraceback where
  | mk : FakeFrame → (tb_lineno : Int) → (tb_next : Option FakeTraceback) →
      (tb_lasti : Int) → FakeTraceback

def FakeTraceback.tb_frame : FakeTraceback → FakeFrame
  | .mk f _ _ _ => f

def FakeTraceback.tb_next : FakeTraceback → Option FakeTraceback
  | .mk _ _ n _ => n

/-- `FakeTraceback.__init__`: capture the frame and recursively the next
traceback node. -/
def FakeTraceback.ofLive (dillAvailable : Bool) : LiveTraceback → FakeTraceback
  | .mk fr lineno next =>
    .mk (FakeFrame.ofLive dillAvailable fr) lineno
      (match next with
        | Option.some t => Option.some (FakeTraceback.ofLive dillAvailable t)
        | Option.none => Option.none) 0

/-- The filter condition of `_remove_builtins`: keep a binding unless its
key is a name listed by `dir(builtins)`. -/
def py_key_in (names : List String) : PyVal → Bool
  | .str s => names.contains s
  | _ => false

/-- The dict comprehension inside `_remove_builtins` applied to one frame
globals dict. -/
def _remove_builtins_globals (names : List String) (g : List (PyVal × PyVal)) :
    List (PyVal × PyVal) :=
  g.filter (fun kv => !(py_key_in names kv.1))

/-- The inner `while frame` loop of `_remove_builtins`. -/
def _remove_builtins_frame (names : List String) : FakeFrame → FakeFrame
  | .mk c l g n b =>
    .mk c l (_remove_builtins_globals names g) n
      (match b with
        | Option.some fb => Option.some (_remove_builtins_frame names fb)
        | Option.none => Option.none)

/-- `_remove_builtins(fake_tb)`: strip, from every frame globals dict
reachable through the traceback chain and each frame back chain, every
binding whose name is in `dir(builtins)`. -/
def _remove_builtins (names : List String) : FakeTraceback → FakeTraceback
  | .mk fr ln nx li =>
    .mk (_remove_builtins_frame names fr) ln
      (match nx with
        | Option.some t => Option.some (_remove_builtins names t)
        | Option.none => Option.none) li

/-- The inner `while frame` loop of `_inject_builtins`: update each frame
globals dict with `builtins.__dict__`. -/
def _inject_builtins_frame (bdict : List (String × PyVal)) : FakeFrame → FakeFrame
  | .mk c l g n b =>
    .mk c l (dict_update g bdict) n
      (match b with
        | Option.some fb => Option.some (_inject_builtins_frame bdict fb)
        | Option.none => Option.none)

/-- `_inject_builtins(fake_tb)`: merge `builtins.__dict__` back into every
frame globals dict reachable from the traceback. -/
def _inject_builtins (bdict : List (String × PyVal)) : FakeTraceback → FakeTraceback
  | .mk fr ln nx li =>
    .mk (_inject_builtins_frame bdict fr) ln
      (match nx with
        | Option.some t => Option.some (_inject_builtins bdict t)
        | Option.none => Option.none) li

/-- The frames visited by the inner `while frame` loops: the frame and its
whole back chain. -/
def frame_chain : FakeFrame → List FakeFrame
  | .mk c l g n Option.none => [FakeFrame.mk c l g n Option.none]
  | .mk c l g n (Option.some b) => FakeFrame.mk c l g n (Option.some b) :: frame_chain b

/-- All frames visited by the two nested loops over a traceback. -/
def all_frames : FakeTraceback → List FakeFrame
  | .mk fr _ Option.none _ => frame_chain fr
  | .mk fr _ (Option.some t) _ =>
    frame_chain fr ++ all_frames t

/-- The placeholder text stored when a source file cannot be read. -/
def couldnt_locate (name : String) : String :=
  "couldn\x27t locate \x27" ++ name ++ "\x27 during dump"

/-- The body of the `_get_traceback_files` loop for one frame: skip the
frame if its absolutized filename is already recorded, otherwise record the
file text, or the placeholder when opening the file raises IOError.
`read_file` is the filesystem oracle (`Option.none` means unreadable). -/
def _get_traceback_files_step (read_file : String → Option String)
    (files : List (String × String)) (fr : FakeFrame) : List (String × String) :=
  let filename := abspath fr.f_code.co_filename
  if files.any (fun e => e.1 = filename) then files
  else files ++ [(filename,
    match read_file filename with
    | Option.some text => text
    | Option.none => couldnt_locate fr.f_code.co_filename)]

/-- `_get_traceback_files(traceback)`: walk every frame of every node of
the chain, accumulating the files dict. -/
def _get_traceback_files (read_file : String → Option String) (tb : FakeTraceback) :
    List (String × String) :=
  (all_frames tb).foldl (_get_traceback_files_step read_file) []

def DUMP_VERSION : Nat := 1

/-- The persisted snapshot: `{"traceback": ..., "files": ...,
"dump_version": DUMP_VERSION}`. -/
structure Dump where
  traceback : FakeTraceback
  files : List (String × String)
  dump_version : Nat

mutual

/-- Whether serializing a captured code object succeeds: all its plain
fields are primitives; the `co_consts` values must serialize. -/
def code_dumps_ok (useDill : Bool) : FakeCode → Bool
  | .mk _ _ _ consts _ _ _ _ _ _ => consts_dumps_ok useDill consts

def consts_dumps_ok (useDill : Bool) : List (FakeCode ⊕ PyVal) → Bool
  | [] => true
  | .inl c :: rest => code_dumps_ok useDill c && consts_dumps_ok useDill rest
  | .inr v :: rest => dumps_ok useDill v && consts_dumps_ok useDill rest

end

/-- Whether every key and value of a dict serializes. -/
def dict_dumps_ok (useDill : Bool) (l : List (PyVal × PyVal)) : Bool :=
  l.all (fun kv => dumps_ok useDill kv.1 && dumps_ok useDill kv.2)

/-- Whether serializing a captured frame (and its back chain) succeeds. -/
def frame_dumps_ok (useDill : Bool) : FakeFrame → Bool
  | .mk c l g _ b =>
    code_dumps_ok useDill c && dict_dumps_ok useDill l && dict_dumps_ok useDill g &&
      (match b with
        | Option.some fb => frame_dumps_ok useDill fb
        | Option.none => true)

/-- Whether serializing a captured traceback chain succeeds. -/
def tb_dumps_ok (useDill : Bool) : FakeTraceback → Bool
  | .mk fr _ nx _ =>
    frame_dumps_ok useDill fr &&
      (match nx with
        | Option.some t => tb_dumps_ok useDill t
        | Option.none => true)

/-- Whether serializing the whole dump succeeds in the given mode (the
files mapping and version field are strings and an int, always
serializable). -/
def dump_dumps_ok (useDill : Bool) (d : Dump) : Bool :=
  tb_dumps_ok useDill d.traceback

/-- Exception classes relevant to `load_dump`: `IOError` (= `OSError`,
which `gzip.BadGzipFile` subclasses), `UnpicklingError`-style
deserialization failures, and the `ValueError` raised by reading a closed
file object. -/
inductive PyErr where
  | ioError
  | unpicklingError
  | valueError
deriving DecidableEq

def is_io_error : PyErr → Bool
  | .ioError => true
  | _ => false

/-- The serialized byte stream inside a dump file: bytes written by
`dill.dump`, bytes written by `pickle.dump` (also readable by dill, which
extends the pickle format), or malformed bytes. -/
inductive Payload where
  | dillData (d : Dump)
  | pickleData (d : Dump)
  | corrupt

/-- What is on disk at the dump path: a gzip-compressed payload (as
`save_dump` writes) or a raw uncompressed payload. -/
inductive FileContent where
  | gz (p : Payload)
  | plain (p : Payload)

/-- Reading through a `gzip.open` handle: yields the payload of a gzip
container; on a non-gzip file the first read raises `BadGzipFile`, an
`OSError`/`IOError`. -/
def gzip_read : FileContent → Except PyErr Payload
  | .gz p => .ok p
  | .plain _ => .error .ioError

/-- Reading through a plain `open` handle: the raw bytes; for a gzip file
these are the compressed stream. -/
def raw_read : FileContent → Payload
  | .gz _ => .corrupt
  | .plain p => p

/-- `dill.load` on a byte stream: reads dill or pickle format, fails on
anything else with an `UnpicklingError`-class error. -/
def dill_load_payload : Payload → Except PyErr Dump
  | .dillData d => .ok d
  | .pickleData d => .ok d
  | .corrupt => .error .unpicklingError

/-- `pickle.load` on a byte stream: reads pickle format; dill-specific
constructs or malformed bytes fail with an `UnpicklingError`-class error. -/
def pickle_load_payload : Payload → Except PyErr Dump
  | .pickleData d => .ok d
  | .dillData _ => .error .unpicklingError
  | .corrupt => .error .unpicklingError

/-- `dill.load(f)` where `f = gzip.open(filename)`. -/
def dill_load_gz (c : FileContent) : Except PyErr Dump :=
  match gzip_read c with
  | .ok p => dill_load_payload p
  | .error e => .error e

/-- `dill.load(f)` where `f = open(filename, "rb")`. -/
def dill_load_raw (c : FileContent) : Except PyErr Dump :=
  dill_load_payload (raw_read c)

/-- `pickle.load(f)` where `f = gzip.open(filename)`. -/
def pickle_load_gz (c : FileContent) : Except PyErr Dump :=
  match gzip_read c with
  | .ok p => pickle_load_payload p
  | .error e => .error e

/-- `pickle.load(f)` where `f = open(filename, "rb")`. -/
def pickle_load_raw (c : FileContent) : Except PyErr Dump :=
  pickle_load_payload (raw_read c)

/-- The serializer call sites of `load_dump`, in source order. -/
inductive Attempt where
  | dillGz
  | dillRaw
  | pickleF
  | pickleRaw
deriving DecidableEq

/-- `load_dump(filename)`, instrumented with the list of serializer call
sites actually executed.  Control flow follows the source exactly:

with dill present, `dill.load` on the gzip handle is tried first; only an
`IOError` is caught, triggering `with open(filename, "rb") as f:
dill.load(f)`; any exception of that retry is swallowed and control falls
through to `pickle.load(f)` — but the inner `with` statement rebound `f`
to the raw handle and closed it on exit, so that read raises `ValueError`
(read of closed file), which the following `except IOError` does not
catch; a non-IOError from the first `dill.load` propagates immediately.
The re-open of the path is assumed to succeed, since the same path was
opened moments earlier by `gzip.open`.

With dill absent, `pickle.load` on the gzip handle is tried; an `IOError`
triggers one retry on a fresh raw handle whose outcome is returned. -/
def load_dump_trace (dillAvailable : Bool) (c : FileContent) :
    Except PyErr Dump × List Attempt :=
  if dillAvailable then
    match dill_load_gz c with
    | .ok d => (.ok d, [.dillGz])
    | .error e =>
      if is_io_error e then
        match dill_load_raw c with
        | .ok d => (.ok d, [.dillGz, .dillRaw])
        | .error _ =>
          (.error .valueError, [.dillGz, .dillRaw, .pickleF])
      else (.error e, [.dillGz])
  else
    match pickle_load_gz c with
    | .ok d => (.ok d, [.pickleF])
    | .error e =>
      if is_io_error e then
        match pickle_load_raw c with
        | .ok d => (.ok d, [.pickleF, .pickleRaw])
        | .error e2 => (.error e2, [.pickleF, .pickleRaw])
      else (.error e, [.pickleF])

/-- `load_dump(filename)`: the returned dump or propagated error. -/
def load_dump (dillAvailable : Bool) (c : FileContent) : Except PyErr Dump :=
  (load_dump_trace dillAvailable c).1

/-- The capture part of `save_dump`: build the `FakeTraceback`, strip
builtins from it, then assemble the dump with the source-file archive and
the format version. -/
def build_dump (dillAvailable : Bool) (builtin_names : List String)
    (read_file : String → Option String) (tb : LiveTraceback) : Dump :=
  let fake_tb := FakeTraceback.ofLive dillAvailable tb
  let fake_tb := _remove_builtins builtin_names fake_tb
  { traceback := fake_tb,
    files := _get_traceback_files read_file fake_tb,
    dump_version := DUMP_VERSION }

/-- The persistence part of `save_dump`: serialize the dump with dill when
available, else with pickle, into a gzip container; a serializer failure on
an unrepresentable value propagates. -/
def save_dump_content (dillAvailable : Bool) (d : Dump) : Except PyErr FileContent :=
  if dillAvailable then
    if dump_dumps_ok true d then .ok (.gz (.dillData d)) else .error .unpicklingError
  else
    if dump_dumps_ok false d then .ok (.gz (.pickleData d)) else .error .unpicklingError

/-- `save_dump(filename, tb)` followed by `load_dump(filename)` on the file
it wrote. -/
def save_then_load (dillAvailable : Bool) (builtin_names : List String)
    (read_file : String → Option String) (tb : LiveTraceback) : Except PyErr Dump :=
  match save_dump_content dillAvailable (build_dump dillAvailable builtin_names read_file tb) with
  | .ok c => load_dump dillAvailable c
  | .error e => .error e

/-- Number of nodes of a live traceback chain. -/
def live_tb_depth : LiveTraceback → Nat
  | .mk _ _ Option.none => 1
  | .mk _ _ (Option.some t) => live_tb_depth t + 1

/-- Number of nodes of a captured traceback chain. -/
def FakeTraceback.depth : FakeTraceback → Nat
  | .mk _ _ Option.none _ => 1
  | .mk _ _ (Option.some t) _ => FakeTraceback.depth t + 1

/-- Number of frames of a live back chain. -/
def live_frame_depth : LiveFrame → Nat
  | .mk _ _ _ _ Option.none => 1
  | .mk _ _ _ _ (Option.some b) => live_frame_depth b + 1

/-- Number of frames of a captured back chain. -/
def FakeFrame.depth : FakeFrame → Nat
  | .mk _ _ _ _ Option.none => 1
  | .mk _ _ _ _ (Option.some b) => FakeFrame.depth b + 1

/-- Follow `tb_next` a given number of times. -/
def tb_next_iter : Nat → Option FakeTraceback → Option FakeTraceback
  | 0, t => t
  | _ + 1, Option.none => Option.none
  | n + 1, Option.some t => tb_next_iter n t.tb_next

/-- Follow `f_back` a given number of times. -/
def f_back_iter : Nat → Option FakeFrame → Option FakeFrame
  | 0, f => f
  | _ + 1, Option.none => Option.none
  | n + 1, Option.some f => f_back_iter n f.f_back

mutual

/-- Every source path mentioned by a captured code object, including the
nested code objects stored in `co_consts`. -/
def code_paths : FakeCode → List String
  | .mk fn _ _ consts _ _ _ _ _ _ => fn :: consts_paths consts

def consts_paths : List (FakeCode ⊕ PyVal) → List String
  | [] => []
  | .inl c :: rest => code_paths c ++ consts_paths rest
  | .inr _ :: rest => consts_paths rest

end

/-- Every source path mentioned by any code object of the captured chain. -/
def tb_code_paths (tb : FakeTraceback) : List String :=
  (all_frames tb).foldr (fun fr acc => code_paths fr.f_code ++ acc) []

/-- Value kinds with no dedicated case in restricted-mode `_convert`: the
concrete type is not NoneType, none of the seven pass-through types, and
not exactly tuple/list/set/dict — so the fall-through repr case applies. -/
def is_other_kind : PyVal → Bool
  | .bool _ => true
  | .sub _ _ => true
  | .obj _ _ _ _ => true
  | .fakeClass _ _ => true
  | _ => false

theorem convert_items_eq_map (d : Bool) (xs : List PyVal) :
    _convert_items d xs = xs.map (_convert d) := by
  induction xs with
  | nil => rfl
  | cons x xs ih => simp [_convert_items, ih]

theorem convert_entries_eq_map (d : Bool) (xs : List (PyVal × PyVal)) :
    _convert_entries d xs = xs.map (fun kv => (_convert d kv.1, _convert d kv.2)) := by
  induction xs with
  | nil => rfl
  | cons kv xs ih => simp [_convert_entries, ih]

/-- C9: restricted-mode classification is by exact concrete type, not
subtype membership: a bool (subclass of int) is not kept as a primitive but
replaced by its repr text, an instance of a strict subclass of a builtin
type is replaced by its repr string, and None passes through via its own
check. -/
theorem restricted_exact_type_identity :
    (∀ b, _convert false (PyVal.bool b) = PyVal.str (if b then "True" else "False")) ∧
    (∀ base r, _convert false (PyVal.sub base r) = PyVal.str r) ∧
    _convert false PyVal.none = PyVal.none := by
  refine ⟨fun b => ?_, fun base r => ?_, rfl⟩
  · cases b <;> rfl
  · rfl

/-- C4: restricted-mode sanitization classifies by kind: the primitive
kinds pass through unchanged; tuples, lists and sets are rebuilt with every
element converted; dicts are rebuilt with both keys and values converted;
every other kind becomes its textual description. -/
theorem restricted_mode_classification :
    (∀ s, _convert false (PyVal.str s) = PyVal.str s) ∧
    (∀ n, _convert false (PyVal.int n) = PyVal.int n) ∧
    (∀ t, _convert false (PyVal.float t) = PyVal.float t) ∧
    (∀ t, _convert false (PyVal.date t) = PyVal.date t) ∧
    (∀ t, _convert false (PyVal.time t) = PyVal.time t) ∧
    (∀ t, _convert false (PyVal.datetime t) = PyVal.datetime t) ∧
    (∀ t, _convert false (PyVal.timedelta t) = PyVal.timedelta t) ∧
    (∀ xs, _convert false (PyVal.tuple xs) = PyVal.tuple (_convert_seq false xs)) ∧
    (∀ xs, _convert false (PyVal.list xs) = PyVal.list (_convert_seq false xs)) ∧
    (∀ xs, _convert false (PyVal.set xs) = PyVal.set (_convert_seq false xs)) ∧
    (∀ xs, _convert false (PyVal.dict xs) = PyVal.dict (_convert_dict false xs)) ∧
    (∀ xs, _convert_seq false xs = xs.map (_convert false)) ∧
    (∀ xs, _convert_dict false xs =
      xs.map (fun kv => (_convert false kv.1, _convert false kv.2))) ∧
    (∀ v, is_other_kind v = true → _convert false v = PyVal.str (_safe_repr v)) := by
  refine ⟨fun s => rfl, fun n => rfl, fun t => rfl, fun t => rfl, fun t => rfl,
    fun t => rfl, fun t => rfl, fun xs => rfl, fun xs => rfl, fun xs => rfl,
    fun xs => rfl, fun xs => convert_items_eq_map false xs,
    fun xs => convert_entries_eq_map false xs, fun v hv => ?_⟩
  cases v <;> simp_all [is_other_kind] <;> rfl

/-- C4 witness: the classification at concrete inputs, with the other-kind
hypothesis discharged on a concrete object value. -/
theorem restricted_mode_classification_witness :
    _convert false (PyVal.obj (.ok "sock") Option.none false false)
      = PyVal.str (_safe_repr (PyVal.obj (.ok "sock") Option.none false false)) :=
  restricted_mode_classification.2.2.2.2.2.2.2.2.2.2.2.2.2
    (PyVal.obj (.ok "sock") Option.none false false) rfl

/-- C2: the sanitizer is total and never propagates a repr failure: when
repr of a value raises with message `m`, `_safe_repr` returns the string
"repr error: " followed by `m`, restricted-mode `_convert` returns that
string for any value on the textual-fallback path, and full-fidelity
`_convert` returns that string whenever `dill.dumps` fails on the value. -/
theorem sanitizer_total_on_repr_failure (v : PyVal) (m : String)
    (h : py_repr v = .raises m) :
    _safe_repr v = "repr error: " ++ m ∧
    (is_other_kind v = true → _convert false v = PyVal.str ("repr error: " ++ m)) ∧
    (dumps_ok true v = false → _convert true v = PyVal.str ("repr error: " ++ m)) := by
  have hs : _safe_repr v = "repr error: " ++ m := by simp [_safe_repr, h]
  refine ⟨hs, fun hv => ?_, fun hd => ?_⟩
  · cases v <;> simp_all [is_other_kind] <;> simpa [_convert] using hs
  · unfold _convert
    simp [hd, hs]

/-- C2 witness: a value whose repr itself raises is sanitized to the error
string in both modes. -/
theorem sanitizer_total_on_repr_failure_witness :
    _safe_repr (PyVal.obj (.raises "boom") Option.none false false) = "repr error: " ++ "boom" ∧
    (is_other_kind (PyVal.obj (.raises "boom") Option.none false false) = true →
      _convert false (PyVal.obj (.raises "boom") Option.none false false)
        = PyVal.str ("repr error: " ++ "boom")) ∧
    (dumps_ok true (PyVal.obj (.raises "boom") Option.none false false) = false →
      _convert true (PyVal.obj (.raises "boom") Option.none false false)
        = PyVal.str ("repr error: " ++ "boom")) :=
  sanitizer_total_on_repr_failure (PyVal.obj (.raises "boom") Option.none false false) "boom" rfl

/-- C3 counterexample: a gzip container holding malformed bytes makes the
first `dill.load` fail with a non-IO deserialization error; `load_dump`
propagates it at once — the restricted serializer is never attempted, so
the failure is not routed through pickle and the hard failure does not wait
for both serializer families to fail. -/
theorem load_dump_nonio_counterexample :
    load_dump_trace true (FileContent.gz Payload.corrupt)
      = (.error .unpicklingError, [.dillGz]) ∧
    Attempt.pickleF ∉ (load_dump_trace true (FileContent.gz Payload.corrupt)).2 := by
  exact ⟨rfl, by decide⟩

/-- C3 amended: with dill present, a successful first attempt returns; an
I/O-class error on the first attempt triggers exactly one retry against an
uncompressed reopen; if the retry succeeds its result is returned; if the
retry fails for any reason, control falls through silently to the
restricted serializer, whose read of the (by then closed) handle raises a
ValueError that propagates; a non-I/O-class failure of the first attempt
propagates immediately without the restricted serializer being attempted. -/
theorem load_dump_error_routing (c : FileContent) :
    (∀ d, dill_load_gz c = .ok d → load_dump_trace true c = (.ok d, [.dillGz])) ∧
    (∀ e, dill_load_gz c = .error e → is_io_error e = false →
      load_dump_trace true c = (.error e, [.dillGz])) ∧
    (∀ e d, dill_load_gz c = .error e → is_io_error e = true → dill_load_raw c = .ok d →
      load_dump_trace true c = (.ok d, [.dillGz, .dillRaw])) ∧
    (∀ e e2, dill_load_gz c = .error e → is_io_error e = true → dill_load_raw c = .error e2 →
      load_dump_trace true c = (.error .valueError, [.dillGz, .dillRaw, .pickleF])) := by
  refine ⟨fun d h => ?_, fun e h hio => ?_, fun e d h hio h2 => ?_,
    fun e e2 h hio h2 => ?_⟩
  · simp [load_dump_trace, h]
  · simp [load_dump_trace, h, hio]
  · simp [load_dump_trace, h, hio, h2]
  · simp [load_dump_trace, h, hio, h2]

/-- C3 witness: the amended routing applied at two concrete containers, a
gzip container with malformed bytes (non-IO failure, immediate
propagation) and an uncompressed container with malformed bytes (IO error,
retry, fall-through, ValueError). -/
theorem load_dump_error_routing_witness :
    load_dump_trace true (FileContent.gz Payload.corrupt)
      = (.error .unpicklingError, [.dillGz]) ∧
    load_dump_trace true (FileContent.plain Payload.corrupt)
      = (.error .valueError, [.dillGz, .dillRaw, .pickleF]) :=
  ⟨(load_dump_error_routing (FileContent.gz Payload.corrupt)).2.1 .unpicklingError rfl rfl,
   (load_dump_error_routing (FileContent.plain Payload.corrupt)).2.2.2 .ioError
     .unpicklingError rfl rfl rfl⟩

/-- C1: whenever every value of the dump that `save_dump` builds is
representable in the active serialization mode (dill when available,
pickle otherwise), loading the file written by `save_dump` returns a dump
equal to the one that was saved — traceback chain, files mapping and
dump_version field included. -/
theorem load_after_save_roundtrip (dillAvailable : Bool) (builtin_names : List String)
    (read_file : String → Option String) (tb : LiveTraceback)
    (h : dump_dumps_ok dillAvailable (build_dump dillAvailable builtin_names read_file tb) = true) :
    save_then_load dillAvailable builtin_names read_file tb
      = .ok (build_dump dillAvailable builtin_names read_file tb) := by
  unfold save_then_load save_dump_content
  cases dillAvailable <;>
    simp [h, load_dump, load_dump_trace, dill_load_gz, pickle_load_gz, gzip_read,
      dill_load_payload, pickle_load_payload]

/-- A small live code object used by concrete witnesses. -/
def demo_live_code : LiveCode :=
  .mk "m.py" "f" 0 [] 1 "" [] 0 "" Option.none

/-- A small live frame: one plain local, a "self" local with an instance
dict, and globals including a binding that shadows a builtin name. -/
def demo_live_frame : LiveFrame :=
  .mk demo_live_code
    [("x", PyVal.int 7),
     ("self", PyVal.obj (.ok "Obj") (Option.some [("a", PyVal.int 1)]) true true)]
    [("g", PyVal.str "v"), ("len", PyVal.int 3)] 5 Option.none

def demo_live_tb : LiveTraceback := .mk demo_live_frame 5 Option.none

/-- Filesystem oracle for the witnesses: only `/cwd/m.py` is readable. -/
def demo_read_file : String → Option String :=
  fun p => if p = "/cwd/m.py" then Option.some "print(1)" else Option.none

/-- C1 witness: the round trip evaluated on a concrete traceback, in
restricted mode and in full-fidelity mode, with the representability
hypothesis discharged by computation. -/
theorem load_after_save_roundtrip_witness :
    (dump_dumps_ok false (build_dump false ["len", "print"] demo_read_file demo_live_tb) = true ∧
      save_then_load false ["len", "print"] demo_read_file demo_live_tb
        = .ok (build_dump false ["len", "print"] demo_read_file demo_live_tb)) ∧
    (dump_dumps_ok true (build_dump true ["len", "print"] demo_read_file demo_live_tb) = true ∧
      save_then_load true ["len", "print"] demo_read_file demo_live_tb
        = .ok (build_dump true ["len", "print"] demo_read_file demo_live_tb)) :=
  ⟨⟨rfl, load_after_save_roundtrip false ["len", "print"] demo_read_file demo_live_tb rfl⟩,
   ⟨rfl, load_after_save_roundtrip true ["len", "print"] demo_read_file demo_live_tb rfl⟩⟩

theorem frame_depth_ofLive (dillAvailable : Bool) : (lf : LiveFrame) →
    FakeFrame.depth (FakeFrame.ofLive dillAvailable lf) = live_frame_depth lf
  | .mk c l g n Option.none => by
    simp [FakeFrame.ofLive, FakeFrame.depth, live_frame_depth]
  | .mk c l g n (Option.some b) => by
    have ih := frame_depth_ofLive dillAvailable b
    simp [FakeFrame.ofLive, FakeFrame.depth, live_frame_depth, ih]

theorem tb_depth_ofLive (dillAvailable : Bool) : (lt : LiveTraceback) →
    FakeTraceback.depth (FakeTraceback.ofLive dillAvailable lt) = live_tb_depth lt
  | .mk fr ln Option.none => by
    simp [FakeTraceback.ofLive, FakeTraceback.depth, live_tb_depth]
  | .mk fr ln (Option.some t) => by
    have ih := tb_depth_ofLive dillAvailable t
    simp [FakeTraceback.ofLive, FakeTraceback.depth, live_tb_depth, ih]

theorem tb_next_iter_depth : (t : FakeTraceback) →
    tb_next_iter (FakeTraceback.depth t) (Option.some t) = Option.none
  | .mk fr ln Option.none li => by
    simp [FakeTraceback.depth, tb_next_iter, FakeTraceback.tb_next]
  | .mk fr ln (Option.some t2) li => by
    have ih := tb_next_iter_depth t2
    simp [FakeTraceback.depth, tb_next_iter, FakeTraceback.tb_next, ih]

theorem f_back_iter_depth : (f : FakeFrame) →
    f_back_iter (FakeFrame.depth f) (Option.some f) = Option.none
  | .mk c l g n Option.none => by
    simp [FakeFrame.depth, f_back_iter, FakeFrame.f_back]
  | .mk c l g n (Option.some b) => by
    have ih := f_back_iter_depth b
    simp [FakeFrame.depth, f_back_iter, FakeFrame.f_back, ih]

/-- C8: capturing a live stack of depth N yields a FakeTraceback chain of
exactly N nodes, and following `tb_next` N times from the head reaches the
terminal absent link; likewise each captured frame's `f_back` chain has as
many frames as the live chain of enclosing activations and reaches the
terminal absent link after that many steps (both chains are finite and
acyclic by construction). -/
theorem capture_preserves_stack_shape (dillAvailable : Bool) (lt : LiveTraceback)
    (lf : LiveFrame) :
    FakeTraceback.depth (FakeTraceback.ofLive dillAvailable lt) = live_tb_depth lt ∧
    tb_next_iter (live_tb_depth lt)
      (Option.some (FakeTraceback.ofLive dillAvailable lt)) = Option.none ∧
    FakeFrame.depth (FakeFrame.ofLive dillAvailable lf) = live_frame_depth lf ∧
    f_back_iter (live_frame_depth lf)
      (Option.some (FakeFrame.ofLive dillAvailable lf)) = Option.none :=
  ⟨tb_depth_ofLive dillAvailable lt,
   by rw [← tb_depth_ofLive dillAvailable lt]; exact tb_next_iter_depth _,
   frame_depth_ofLive dillAvailable lf,
   by rw [← frame_depth_ofLive dillAvailable lf]; exact f_back_iter_depth _⟩

/-- Model of `dir(builtins)`: the names of `builtins.__dict__` (`dir`
sorts them, which does not affect membership). -/
def dir_builtins (bdict : List (String × PyVal)) : List String :=
  bdict.map Prod.fst

theorem is_str_key_iff (k : String) (x : PyVal) :
    is_str_key k x = true ↔ x = PyVal.str k := by
  cases x <;> simp [is_str_key]

theorem not_mem_remove_globals (names : List String) (n : String)
    (hn : names.contains n = true) (g : List (PyVal × PyVal)) (v : PyVal) :
    (PyVal.str n, v) ∉ _remove_builtins_globals names g := by
  intro hmem
  have h2 := (List.mem_filter.mp hmem).2
  simp [py_key_in, hn] at h2
  exact h2 (List.elem_iff.mp hn)

theorem remove_frame_no_builtin (names : List String) (n : String)
    (hn : names.contains n = true) : (f : FakeFrame) →
    ∀ fr ∈ frame_chain (_remove_builtins_frame names f), ∀ v,
      (PyVal.str n, v) ∉ fr.f_globals
  | .mk c l g ln Option.none => by
    intro fr hfr v
    simp [_remove_builtins_frame, frame_chain] at hfr
    subst hfr
    simpa [FakeFrame.f_globals] using not_mem_remove_globals names n hn g v
  | .mk c l g ln (Option.some b) => by
    intro fr hfr v
    simp [_remove_builtins_frame, frame_chain] at hfr
    rcases hfr with h1 | h1
    · subst h1
      simpa [FakeFrame.f_globals] using not_mem_remove_globals names n hn g v
    · exact remove_frame_no_builtin names n hn b fr h1 v

theorem remove_tb_no_builtin (names : List String) (n : String)
    (hn : names.contains n = true) : (t : FakeTraceback) →
    ∀ fr ∈ all_frames (_remove_builtins names t), ∀ v,
      (PyVal.str n, v) ∉ fr.f_globals
  | .mk f ln Option.none li => by
    intro fr hfr v
    simp [_remove_builtins, all_frames] at hfr
    exact remove_frame_no_builtin names n hn f fr hfr v
  | .mk f ln (Option.some t2) li => by
    intro fr hfr v
    simp [_remove_builtins, all_frames] at hfr
    rcases hfr with h1 | h1
    · exact remove_frame_no_builtin names n hn f fr h1 v
    · exact remove_tb_no_builtin names n hn t2 fr h1 v

theorem mem_dict_setitem_self (d : List (PyVal × PyVal)) (k : String) (w : PyVal) :
    ∃ v, (PyVal.str k, v) ∈ dict_setitem d k w := by
  unfold dict_setitem
  by_cases h : d.any (fun kv => is_str_key k kv.1) = true
  · simp only [h, if_true]
    obtain ⟨kv, hkv, hpred⟩ := List.any_eq_true.mp h
    exact ⟨w, List.mem_map.mpr ⟨kv, hkv, by
      rw [(is_str_key_iff k kv.1).mp hpred]
      simp [is_str_key]⟩⟩
  · rw [Bool.not_eq_true] at h
    simp only [h, Bool.false_eq_true, if_false]
    exact ⟨w, by simp⟩

theorem mem_dict_setitem_mono (d : List (PyVal × PyVal)) (k m : String) (w : PyVal)
    (h : ∃ v, (PyVal.str m, v) ∈ d) : ∃ v, (PyVal.str m, v) ∈ dict_setitem d k w := by
  obtain ⟨v, hv⟩ := h
  unfold dict_setitem
  by_cases hc : d.any (fun kv => is_str_key k kv.1) = true
  · simp only [hc, if_true]
    by_cases hk : is_str_key k (PyVal.str m) = true
    · exact ⟨w, List.mem_map.mpr ⟨(PyVal.str m, v), hv, by simp [hk]⟩⟩
    · rw [Bool.not_eq_true] at hk
      exact ⟨v, List.mem_map.mpr ⟨(PyVal.str m, v), hv, by simp [hk]⟩⟩
  · rw [Bool.not_eq_true] at hc
    simp only [hc, Bool.false_eq_true, if_false]
    exact ⟨v, List.mem_append_left _ hv⟩

theorem mem_dict_update_mono (b : List (String × PyVal)) (d : List (PyVal × PyVal))
    (m : String) (h : ∃ v, (PyVal.str m, v) ∈ d) :
    ∃ v, (PyVal.str m, v) ∈ dict_update d b := by
  induction b generalizing d with
  | nil => exact h
  | cons kv rest ih =>
    exact ih (dict_setitem d kv.1 kv.2) (mem_dict_setitem_mono d kv.1 m kv.2 h)

theorem mem_dict_update_of_mem_b (b : List (String × PyVal)) (d : List (PyVal × PyVal))
    (n : String) (h : n ∈ b.map Prod.fst) : ∃ v, (PyVal.str n, v) ∈ dict_update d b := by
  induction b generalizing d with
  | nil => simp at h
  | cons kv rest ih =>
    simp only [List.map_cons, List.mem_cons] at h
    rcases h with h1 | h2
    · rw [h1]
      exact mem_dict_update_mono rest (dict_setitem d kv.1 kv.2) kv.1
        (mem_dict_setitem_self d kv.1 kv.2)
    · exact ih (dict_setitem d kv.1 kv.2) h2

theorem inject_frame_has_builtin (bdict : List (String × PyVal)) (n : String)
    (h : n ∈ bdict.map Prod.fst) : (f : FakeFrame) →
    ∀ fr ∈ frame_chain (_inject_builtins_frame bdict f), ∃ v,
      (PyVal.str n, v) ∈ fr.f_globals
  | .mk c l g ln Option.none => by
    intro fr hfr
    simp [_inject_builtins_frame, frame_chain] at hfr
    subst hfr
    simpa [FakeFrame.f_globals] using mem_dict_update_of_mem_b bdict g n h
  | .mk c l g ln (Option.some b) => by
    intro fr hfr
    simp [_inject_builtins_frame, frame_chain] at hfr
    rcases hfr with h1 | h1
    · subst h1
      simpa [FakeFrame.f_globals] using mem_dict_update_of_mem_b bdict g n h
    · exact inject_frame_has_builtin bdict n h b fr h1

theorem inject_tb_has_builtin (bdict : List (String × PyVal)) (n : String)
    (h : n ∈ bdict.map Prod.fst) : (t : FakeTraceback) →
    ∀ fr ∈ all_frames (_inject_builtins bdict t), ∃ v,
      (PyVal.str n, v) ∈ fr.f_globals
  | .mk f ln Option.none li => by
    intro fr hfr
    simp [_inject_builtins, all_frames] at hfr
    exact inject_frame_has_builtin bdict n h f fr hfr
  | .mk f ln (Option.some t2) li => by
    intro fr hfr
    simp [_inject_builtins, all_frames] at hfr
    rcases hfr with h1 | h1
    · exact inject_frame_has_builtin bdict n h f fr h1
    · exact inject_tb_has_builtin bdict n h t2 fr h1

/-- C5: a global binding whose name matches a built-in identifier is absent
from every frame globals mapping after `_remove_builtins` (the state
persisted by `save_dump`), and a binding of that name is present in every
frame globals mapping after `_inject_builtins` runs on a loaded chain. -/
theorem builtin_name_strip_and_reinstate (bdict : List (String × PyVal)) (n : String)
    (h : n ∈ bdict.map Prod.fst) (saved loaded : FakeTraceback) :
    (∀ fr ∈ all_frames (_remove_builtins (dir_builtins bdict) saved), ∀ v,
      (PyVal.str n, v) ∉ fr.f_globals) ∧
    (∀ fr ∈ all_frames (_inject_builtins bdict loaded), ∃ v,
      (PyVal.str n, v) ∈ fr.f_globals) := by
  have hn : (dir_builtins bdict).contains n = true :=
    List.elem_iff.mpr (by simpa [dir_builtins] using h)
  exact ⟨remove_tb_no_builtin (dir_builtins bdict) n hn saved,
    inject_tb_has_builtin bdict n h loaded⟩

/-- Model of `builtins.__dict__` used by concrete witnesses. -/
def demo_builtins : List (String × PyVal) :=
  [("len", PyVal.obj (.ok "builtin-len") Option.none true true),
   ("print", PyVal.obj (.ok "builtin-print") Option.none true true)]

/-- C5 witness: on the captured demo traceback, whose globals contain a
binding named "len", the name is gone after stripping and back after
injection. -/
theorem builtin_name_strip_and_reinstate_witness :
    (∀ fr ∈ all_frames (_remove_builtins (dir_builtins demo_builtins)
        (FakeTraceback.ofLive false demo_live_tb)), ∀ v,
      (PyVal.str "len", v) ∉ fr.f_globals) ∧
    (∀ fr ∈ all_frames (_inject_builtins demo_builtins
        (FakeTraceback.ofLive false demo_live_tb)), ∃ v,
      (PyVal.str "len", v) ∈ fr.f_globals) :=
  builtin_name_strip_and_reinstate demo_builtins "len" (by decide)
    (FakeTraceback.ofLive false demo_live_tb) (FakeTraceback.ofLive false demo_live_tb)

theorem alookup_py_none_of_all_miss (m : String) (l : List (PyVal × PyVal))
    (h : ∀ kv ∈ l, is_str_key m kv.1 = false) : alookup_py m l = Option.none := by
  induction l with
  | nil => rfl
  | cons kv rest ih =>
    simp [alookup_py, h kv (List.mem_cons_self kv rest)]
    exact ih fun kv2 hk2 => h kv2 (List.mem_cons_of_mem kv hk2)

theorem alookup_py_append (m : String) (l1 l2 : List (PyVal × PyVal)) :
    alookup_py m (l1 ++ l2) = match alookup_py m l1 with
      | Option.some v => Option.some v
      | Option.none => alookup_py m l2 := by
  induction l1 with
  | nil => simp [alookup_py]
  | cons kv rest ih =>
    by_cases h : is_str_key m kv.1 = true
    · simp [alookup_py, h]
    · rw [Bool.not_eq_true] at h
      simp [alookup_py, h, ih]

theorem alookup_py_map_hit (d : List (PyVal × PyVal)) (k : String) (w : PyVal)
    (hc : d.any (fun kv => is_str_key k kv.1) = true) :
    alookup_py k (d.map (fun kv => if is_str_key k kv.1 then (kv.1, w) else kv))
      = Option.some w := by
  induction d with
  | nil => simp at hc
  | cons kv rest ih =>
    by_cases h : is_str_key k kv.1 = true
    · have hk := (is_str_key_iff k kv.1).mp h
      simp [alookup_py, h, hk, is_str_key]
    · rw [Bool.not_eq_true] at h
      have hrest : rest.any (fun kv => is_str_key k kv.1) = true := by
        simpa [List.any_cons, h] using hc
      simp [alookup_py, h]
      exact ih hrest

theorem alookup_py_map_miss (d : List (PyVal × PyVal)) (k m : String) (w : PyVal)
    (hkm : k ≠ m) :
    alookup_py m (d.map (fun kv => if is_str_key k kv.1 then (kv.1, w) else kv))
      = alookup_py m d := by
  induction d with
  | nil => rfl
  | cons kv rest ih =>
    by_cases h : is_str_key k kv.1 = true
    · have hk := (is_str_key_iff k kv.1).mp h
      have hm : is_str_key m kv.1 = false := by
        rw [hk]; simp [is_str_key, hkm]
      simp [alookup_py, h, hm, ih]
    · rw [Bool.not_eq_true] at h
      by_cases h2 : is_str_key m kv.1 = true
      · simp [alookup_py, h, h2]
      · rw [Bool.not_eq_true] at h2
        simp [alookup_py, h, h2, ih]

theorem alookup_py_setitem (d : List (PyVal × PyVal)) (k m : String) (w : PyVal) :
    alookup_py m (dict_setitem d k w)
      = if k = m then Option.some w else alookup_py m d := by
  unfold dict_setitem
  by_cases hc : d.any (fun kv => is_str_key k kv.1) = true
  · simp only [hc, if_true]
    by_cases hkm : k = m
    · subst hkm
      simp [alookup_py_map_hit d k w hc]
    · simp [hkm, alookup_py_map_miss d k m w hkm]
  · rw [Bool.not_eq_true] at hc
    simp only [hc, Bool.false_eq_true, if_false]
    rw [alookup_py_append]
    by_cases hkm : k = m
    · subst hkm
      have hnone : alookup_py k d = Option.none := by
        refine alookup_py_none_of_all_miss k d fun kv hkv => ?_
        by_contra hne
        rw [Bool.not_eq_false] at hne
        have hany : d.any (fun kv => is_str_key k kv.1) = true :=
          List.any_eq_true.mpr ⟨kv, hkv, hne⟩
        exact absurd hany (by simp [hc])
      simp [hnone, alookup_py, is_str_key]
    · cases hx : alookup_py m d with
      | some v => simp [hx, hkm]
      | none =>
        have : is_str_key m (PyVal.str k) = false := by
          simp [is_str_key]
          exact hkm
        simp [hx, hkm, alookup_py, this]

theorem alookup_s_append (m : String) (l1 l2 : List (String × PyVal)) :
    alookup_s m (l1 ++ l2) = match alookup_s m l1 with
      | Option.some v => Option.some v
      | Option.none => alookup_s m l2 := by
  induction l1 with
  | nil => simp [alookup_s]
  | cons kv rest ih =>
    by_cases h : kv.1 = m
    · simp [alookup_s, h]
    · simp [alookup_s, h, ih]

theorem alookup_s_none_iff (m : String) (l : List (String × PyVal)) :
    alookup_s m l = Option.none ↔ m ∉ l.map Prod.fst := by
  induction l with
  | nil => simp [alookup_s]
  | cons kv rest ih =>
    by_cases h : kv.1 = m
    · subst h
      simp [alookup_s]
    · have h2 : ¬(m = kv.1) := fun hh => h hh.symm
      simp [alookup_s, h, ih, h2]

theorem alookup_py_update (b : List (String × PyVal)) (d : List (PyVal × PyVal))
    (m : String) :
    alookup_py m (dict_update d b)
      = match alookup_s m b.reverse with
        | Option.some v => Option.some v
        | Option.none => alookup_py m d := by
  induction b generalizing d with
  | nil => simp [dict_update, alookup_s]
  | cons kv rest ih =>
    show alookup_py m (dict_update (dict_setitem d kv.1 kv.2) rest) = _
    rw [ih, List.reverse_cons, alookup_s_append, alookup_py_setitem]
    cases hx : alookup_s m rest.reverse with
    | some v => simp
    | none =>
      by_cases h : kv.1 = m
      · simp [alookup_s, h]
      · simp [alookup_s, h]

theorem alookup_s_reverse_nodup (m : String) (l : List (String × PyVal))
    (h : (l.map Prod.fst).Nodup) : alookup_s m l.reverse = alookup_s m l := by
  induction l with
  | nil => rfl
  | cons kv rest ih =>
    simp only [List.map_cons, List.nodup_cons] at h
    obtain ⟨hnot, hrest⟩ := h
    rw [List.reverse_cons, alookup_s_append, ih hrest]
    by_cases hm : kv.1 = m
    · rw [← hm]
      rw [(alookup_s_none_iff kv.1 rest).mpr hnot]
      simp [alookup_s]
    · cases hx : alookup_s m rest with
      | some v => simp [alookup_s, hm, hx]
      | none => simp [alookup_s, hm, hx]

/-- C10: builtin stripping decides purely on the binding name (membership
in `dir(builtins)`), never on its value: every binding named `n` is removed
whatever value it carried; and after `_inject_builtins` updates the
stripped globals, the name resolves to the value in `builtins.__dict__` —
the shadowing captured value is gone for good. -/
theorem builtin_strip_by_name_rebind_to_builtin (bdict : List (String × PyVal))
    (n : String) (g : List (PyVal × PyVal)) (h : n ∈ bdict.map Prod.fst)
    (hnd : (bdict.map Prod.fst).Nodup) :
    (∀ v, (PyVal.str n, v) ∉ _remove_builtins_globals (dir_builtins bdict) g) ∧
    alookup_py n (dict_update (_remove_builtins_globals (dir_builtins bdict) g) bdict)
      = alookup_s n bdict := by
  have hn : (dir_builtins bdict).contains n = true :=
    List.elem_iff.mpr (by simpa [dir_builtins] using h)
  constructor
  · exact fun v => not_mem_remove_globals (dir_builtins bdict) n hn g v
  · rw [alookup_py_update, alookup_s_reverse_nodup n bdict hnd]
    cases hx : alookup_s n bdict with
    | some v => simp
    | none => exact absurd h ((alookup_s_none_iff n bdict).mp hx)

/-- C10 witness: a globals dict shadowing "len" with the int 3; after
stripping and reinjection the name resolves to the builtin object. -/
theorem builtin_strip_by_name_rebind_to_builtin_witness :
    (∀ v, (PyVal.str "len", v) ∉ _remove_builtins_globals (dir_builtins demo_builtins)
        (str_dict [("len", PyVal.int 3), ("g", PyVal.str "v")])) ∧
    alookup_py "len" (dict_update (_remove_builtins_globals (dir_builtins demo_builtins)
        (str_dict [("len", PyVal.int 3), ("g", PyVal.str "v")])) demo_builtins)
      = alookup_s "len" demo_builtins :=
  builtin_strip_by_name_rebind_to_builtin demo_builtins "len"
    (str_dict [("len", PyVal.int 3), ("g", PyVal.str "v")]) (by decide) (by decide)

theorem convert_str (dillAvailable : Bool) (k : String) :
    _convert dillAvailable (PyVal.str k) = PyVal.str k := by
  cases dillAvailable <;> rfl

theorem convert_str_dict (dillAvailable : Bool) (l : List (String × PyVal)) :
    _convert_dict dillAvailable (str_dict l)
      = l.map (fun kv => (PyVal.str kv.1, _convert dillAvailable kv.2)) := by
  induction l with
  | nil => rfl
  | cons kv rest ih =>
    show (_convert dillAvailable (PyVal.str kv.1), _convert dillAvailable kv.2)
        :: _convert_entries dillAvailable (str_dict rest) = _
    rw [convert_str, List.map_cons]
    exact congrArg (List.cons _) ih

theorem alookup_s_some_mem (m : String) (l : List (String × PyVal)) (v : PyVal)
    (h : alookup_s m l = Option.some v) : m ∈ l.map Prod.fst := by
  induction l with
  | nil => simp [alookup_s] at h
  | cons kv rest ih =>
    by_cases hk : kv.1 = m
    · simp [hk]
    · simp only [alookup_s, hk, if_false] at h
      simp [ih h]

theorem ofLive_f_locals (dillAvailable : Bool) (code : LiveCode)
    (locals globals : List (String × PyVal)) (lineno : Int) (back : Option LiveFrame) :
    (FakeFrame.ofLive dillAvailable (.mk code locals globals lineno back)).f_locals =
      (let conv := _convert_dict dillAvailable (str_dict locals)
       if conv.any (fun kv => is_str_key "self" kv.1) then
         match alookup_s "self" locals with
         | Option.some v => dict_setitem conv "self" (_convert_obj dillAvailable v)
         | Option.none => conv
       else conv) := by
  cases back <;> rfl

/-- C7: when a captured frame's locals contain a binding named "self", the
stored binding is the result of the object-sanitizer path `_convert_obj`
applied to the live value: a `FakeClass` stand-in holding the value's safe
repr plus its attribute dict with keys and values sanitized; and whenever
building that stand-in fails (no instance dict), `_convert_obj` falls back
to the generic `_convert` path. -/
theorem self_local_via_object_sanitizer (dillAvailable : Bool) (code : LiveCode)
    (locals globals : List (String × PyVal)) (lineno : Int) (back : Option LiveFrame)
    (v : PyVal) (hv : alookup_s "self" locals = Option.some v) :
    alookup_py "self"
        (FakeFrame.ofLive dillAvailable (.mk code locals globals lineno back)).f_locals
      = Option.some (_convert_obj dillAvailable v) ∧
    (∀ w, has_inst_dict w = false →
      _convert_obj dillAvailable w = _convert dillAvailable w) ∧
    (∀ r attrs dOk pOk,
      _convert_obj dillAvailable (PyVal.obj r (Option.some attrs) dOk pOk)
        = PyVal.fakeClass (_safe_repr (PyVal.obj r (Option.some attrs) dOk pOk))
            (_convert_dict dillAvailable (str_dict attrs))) := by
  refine ⟨?_, fun w hw => ?_, fun r attrs dOk pOk => rfl⟩
  · have hmem : "self" ∈ locals.map Prod.fst := alookup_s_some_mem _ _ _ hv
    have hany : (_convert_dict dillAvailable (str_dict locals)).any
        (fun kv => is_str_key "self" kv.1) = true := by
      rw [convert_str_dict]
      obtain ⟨kv, hkv, hfst⟩ := List.mem_map.mp hmem
      refine List.any_eq_true.mpr
        ⟨(PyVal.str "self", _convert dillAvailable kv.2), ?_, ?_⟩
      · exact List.mem_map.mpr ⟨kv, hkv, by rw [hfst]⟩
      · simp [is_str_key]
    rw [ofLive_f_locals]
    simp only [hany, if_true, hv]
    rw [alookup_py_setitem]
    simp
  · cases w with
    | obj r attrs dOk pOk =>
      cases attrs with
      | none => rfl
      | some a => simp [has_inst_dict] at hw
    | none => rfl
    | str s => rfl
    | int n => rfl
    | float t => rfl
    | bool b => rfl
    | date t => rfl
    | time t => rfl
    | datetime t => rfl
    | timedelta t => rfl
    | tuple xs => rfl
    | list xs => rfl
    | set xs => rfl
    | dict xs => rfl
    | sub b r => rfl
    | fakeClass r vars => rfl

/-- C7 witness: on the demo frame, whose locals bind "self" to an object
with an instance dict, the captured binding is the FakeClass stand-in. -/
theorem self_local_via_object_sanitizer_witness :
    alookup_py "self" (FakeFrame.ofLive false demo_live_frame).f_locals
      = Option.some (_convert_obj false
          (PyVal.obj (.ok "Obj") (Option.some [("a", PyVal.int 1)]) true true)) ∧
    (∀ w, has_inst_dict w = false →
      _convert_obj false w = _convert false w) ∧
    (∀ r attrs dOk pOk,
      _convert_obj false (PyVal.obj r (Option.some attrs) dOk pOk)
        = PyVal.fakeClass (_safe_repr (PyVal.obj r (Option.some attrs) dOk pOk))
            (_convert_dict false (str_dict attrs))) :=
  self_local_via_object_sanitizer false demo_live_code
    [("x", PyVal.int 7),
     ("self", PyVal.obj (.ok "Obj") (Option.some [("a", PyVal.int 1)]) true true)]
    [("g", PyVal.str "v"), ("len", PyVal.int 3)] 5 Option.none
    (PyVal.obj (.ok "Obj") (Option.some [("a", PyVal.int 1)]) true true) rfl

theorem is_abs_cwd (p : String) : is_abs ("/cwd/" ++ p) = true := by
  have h : ("/cwd/" ++ p).data = '/' :: 'c' :: 'w' :: 'd' :: '/' :: p.data := by
    rw [String.data_append]
    rfl
  simp [is_abs, h]

theorem is_abs_abspath (p : String) : is_abs (abspath p) = true := by
  unfold abspath
  by_cases h : is_abs p = true
  · simp [h]
  · rw [Bool.not_eq_true] at h
    simp [h, is_abs_cwd]

theorem abspath_of_abs (p : String) (h : is_abs p = true) : abspath p = p := by
  unfold abspath
  simp [h]

theorem capture_frame_paths_abs (dillAvailable : Bool) (names : List String) :
    (lf : LiveFrame) →
    ∀ fr ∈ frame_chain (_remove_builtins_frame names (FakeFrame.ofLive dillAvailable lf)),
      is_abs fr.f_code.co_filename = true
  | .mk code locals globals ln Option.none => by
    intro fr hfr
    simp [FakeFrame.ofLive, _remove_builtins_frame, frame_chain] at hfr
    subst hfr
    cases code with
    | mk fn nm argc consts first lnotab varnames flags cd colines =>
      exact is_abs_abspath fn
  | .mk code locals globals ln (Option.some b) => by
    intro fr hfr
    simp [FakeFrame.ofLive, _remove_builtins_frame, frame_chain] at hfr
    rcases hfr with h1 | h1
    · subst h1
      cases code with
      | mk fn nm argc consts first lnotab varnames flags cd colines =>
        exact is_abs_abspath fn
    · exact capture_frame_paths_abs dillAvailable names b fr h1

theorem capture_tb_paths_abs (dillAvailable : Bool) (names : List String) :
    (lt : LiveTraceback) →
    ∀ fr ∈ all_frames (_remove_builtins names (FakeTraceback.ofLive dillAvailable lt)),
      is_abs fr.f_code.co_filename = true
  | .mk f ln Option.none => by
    intro fr hfr
    simp [FakeTraceback.ofLive, _remove_builtins, all_frames] at hfr
    exact capture_frame_paths_abs dillAvailable names f fr hfr
  | .mk f ln (Option.some t2) => by
    intro fr hfr
    simp [FakeTraceback.ofLive, _remove_builtins, all_frames] at hfr
    rcases hfr with h1 | h1
    · exact capture_frame_paths_abs dillAvailable names f fr h1
    · exact capture_tb_paths_abs dillAvailable names t2 fr h1

theorem gtf_mem_preserved (read_file : String → Option String) (frs : List FakeFrame) :
    ∀ acc e, e ∈ acc → e ∈ frs.foldl (_get_traceback_files_step read_file) acc := by
  induction frs with
  | nil => exact fun acc e h => h
  | cons f rest ih =>
    intro acc e h
    apply ih
    unfold _get_traceback_files_step
    by_cases hc : acc.any (fun en => en.1 = abspath f.f_code.co_filename) = true
    · simpa [hc] using h
    · rw [Bool.not_eq_true] at hc
      simp only [hc, Bool.false_eq_true, if_false]
      exact List.mem_append_left _ h

theorem gtf_step_covers (read_file : String → Option String)
    (acc : List (String × String)) (fr : FakeFrame) :
    ∃ t, (abspath fr.f_code.co_filename, t)
      ∈ _get_traceback_files_step read_file acc fr := by
  unfold _get_traceback_files_step
  by_cases hc : acc.any (fun e => e.1 = abspath fr.f_code.co_filename) = true
  · simp only [hc, if_true]
    obtain ⟨e, he, hpred⟩ := List.any_eq_true.mp hc
    obtain ⟨p, t⟩ := e
    simp only at hpred
    simp only [decide_eq_true_eq] at hpred
    subst hpred
    exact ⟨t, he⟩
  · rw [Bool.not_eq_true] at hc
    simp only [hc, Bool.false_eq_true, if_false]
    exact ⟨_, List.mem_append_right _ (List.mem_singleton.mpr rfl)⟩

theorem gtf_fold_covers (read_file : String → Option String) (frs : List FakeFrame) :
    ∀ acc fr, fr ∈ frs → ∃ t, (abspath fr.f_code.co_filename, t)
      ∈ frs.foldl (_get_traceback_files_step read_file) acc := by
  induction frs with
  | nil => simp
  | cons f rest ih =>
    intro acc fr hfr
    rcases List.mem_cons.mp hfr with h1 | h1
    · subst h1
      obtain ⟨t, ht⟩ := gtf_step_covers read_file acc fr
      exact ⟨t, gtf_mem_preserved read_file rest _ _ ht⟩
    · exact ih _ fr h1

theorem gtf_fold_entries (read_file : String → Option String) (frs : List FakeFrame) :
    (∀ fr ∈ frs, is_abs fr.f_code.co_filename = true) →
    ∀ acc, (∀ p t, (p, t) ∈ acc → read_file p = Option.some t ∨
        (read_file p = Option.none ∧ t = couldnt_locate p)) →
    ∀ p t, (p, t) ∈ frs.foldl (_get_traceback_files_step read_file) acc →
      read_file p = Option.some t ∨
        (read_file p = Option.none ∧ t = couldnt_locate p) := by
  induction frs with
  | nil => exact fun _ acc hacc => hacc
  | cons f rest ih =>
    intro habs acc hacc
    apply ih (fun fr hfr => habs fr (List.mem_cons_of_mem f hfr))
    intro p t hpt
    unfold _get_traceback_files_step at hpt
    by_cases hc : acc.any (fun e => e.1 = abspath f.f_code.co_filename) = true
    · simp only [hc, if_true] at hpt
      exact hacc p t hpt
    · rw [Bool.not_eq_true] at hc
      simp only [hc, Bool.false_eq_true, if_false] at hpt
      rcases List.mem_append.mp hpt with h1 | h1
      · exact hacc p t h1
      · have habs_f : abspath f.f_code.co_filename = f.f_code.co_filename :=
          abspath_of_abs _ (habs f (List.mem_cons_self f rest))
        rw [List.mem_singleton, Prod.mk.injEq] at h1
        obtain ⟨hp, ht⟩ := h1
        cases hread : read_file (abspath f.f_code.co_filename) with
        | some text =>
          left
          rw [hread] at ht
          rw [← hp] at hread
          rw [hread, ht]
        | none =>
          right
          rw [hread] at ht
          rw [← hp] at hread
          refine ⟨hread, ?_⟩
          rw [ht]
          show couldnt_locate f.f_code.co_filename = couldnt_locate p
          rw [hp, habs_f]

/-- C6 amended: after capture, every frame of the chain has an entry in the
files mapping under its (absolutized) code path, and every entry is either
the exact text the filesystem returned for that path or the documented
placeholder string; an unreadable file yields the placeholder instead of
aborting the capture.  Paths of nested code units stored in `co_consts`
are covered only insofar as they coincide with some frame path, since
`_get_traceback_files` walks frames only. -/
theorem source_archive_covers_frame_paths (dillAvailable : Bool) (names : List String)
    (read_file : String → Option String) (lt : LiveTraceback) :
    (∀ fr ∈ all_frames (build_dump dillAvailable names read_file lt).traceback,
      ∃ t, (abspath fr.f_code.co_filename, t)
        ∈ (build_dump dillAvailable names read_file lt).files) ∧
    (∀ p t, (p, t) ∈ (build_dump dillAvailable names read_file lt).files →
      read_file p = Option.some t ∨
        (read_file p = Option.none ∧ t = couldnt_locate p)) := by
  constructor
  · intro fr hfr
    exact gtf_fold_covers read_file
      (all_frames (_remove_builtins names (FakeTraceback.ofLive dillAvailable lt)))
      [] fr hfr
  · intro p t hpt
    refine gtf_fold_entries read_file
      (all_frames (_remove_builtins names (FakeTraceback.ofLive dillAvailable lt)))
      (capture_tb_paths_abs dillAvailable names lt) []
      (fun p2 t2 h2 => absurd h2 (List.not_mem_nil _)) p t hpt

/-- A live traceback whose only frame runs code with a relative path, so
that its file is unreadable and the placeholder is archived. -/
def missing_file_live_tb : LiveTraceback :=
  .mk (.mk (.mk "other.py" "f" 0 [] 1 "" [] 0 "" Option.none) [] [] 1 Option.none)
    1 Option.none

/-- C6 witness: the amended statement evaluated on concrete captures: the
readable demo file round-trips its exact text, and the unreadable file of
`missing_file_live_tb` gets the placeholder entry rather than an error. -/
theorem source_archive_covers_frame_paths_witness :
    (demo_read_file "/cwd/m.py" = Option.some "print(1)" ∨
      (demo_read_file "/cwd/m.py" = Option.none ∧
        "print(1)" = couldnt_locate "/cwd/m.py")) ∧
    (demo_read_file "/cwd/other.py" = Option.some (couldnt_locate "/cwd/other.py") ∨
      (demo_read_file "/cwd/other.py" = Option.none ∧
        couldnt_locate "/cwd/other.py" = couldnt_locate "/cwd/other.py")) := by
  constructor
  · exact (source_archive_covers_frame_paths false ["len"] demo_read_file
      demo_live_tb).2 "/cwd/m.py" "print(1)" (by decide)
  · exact (source_archive_covers_frame_paths false ["len"] demo_read_file
      missing_file_live_tb).2 "/cwd/other.py" (couldnt_locate "/cwd/other.py") (by decide)

/-- A live traceback whose frame code carries a nested code object (in
`co_consts`) whose source path differs from the frame path; both files are
readable. -/
def nested_code_live_tb : LiveTraceback :=
  .mk (.mk (.mk "/a.py" "f" 0
      [.inl (.mk "/b.py" "g" 0 [] 1 "" [] 0 "" Option.none)]
      1 "" [] 0 "" Option.none) [] [] 1 Option.none) 1 Option.none

/-- Oracle under which every path is readable. -/
def nested_read_file : String → Option String :=
  fun p => if p = "/a.py" then Option.some "text-a" else Option.some "text-b"

/-- C6 counterexample: the nested code unit path "/b.py" appears in a
CodeMeta of the captured chain, yet the files mapping has no entry for it
(`_get_traceback_files` never descends into `co_consts`), even though the
file was readable. -/
theorem nested_const_source_missing :
    "/b.py" ∈ tb_code_paths (build_dump false [] nested_read_file nested_code_live_tb).traceback ∧
    "/b.py" ∉ ((build_dump false [] nested_read_file nested_code_live_tb).files).map Prod.fst := by
  exact ⟨by decide, by decide⟩
